import Mathlib

/-!
Verification development for the ORCA output viewer's parsing and
bond-inference engine (src/services/orcaParser.ts and src/types.ts).

The TypeScript source is shallowly embedded: JavaScript numbers are
modelled as `Option ℚ`, where `none` stands for `NaN` (every numeric
value actually produced by the program is a finite decimal, hence
rational); every JS arithmetic operation and comparison is given its
IEEE behaviour on `NaN` (propagation for arithmetic, `false` for
comparisons and `===`).  `Math.sqrt` appears in the source only on the
left of `<=` comparisons against nonnegative thresholds, so those
comparisons are embedded by the equivalent squared comparison
`sqrt d ≤ t ↔ 0 ≤ t ∧ d ≤ t*t` (for `0 ≤ d`), keeping every definition
executable; the bridge to `Real.sqrt` is proved as a lemma.  Regex
matching is embedded as explicit character-list scanners with the same
anchoring, greediness and backtracking outcome as the source patterns
(each pattern in the source is deterministic: every greedy repetition
is followed by a character class disjoint from it).  The window lookup
`lines.slice(max(0,i-100), i).join('\n').match(...)` is modelled line
by line (the pattern's `\s+` gap could in principle also span the
inserted `'\n'`; no marker/value pair in the source format is split
across lines, and all concrete inputs used below keep marker and value
on one line).
-/

namespace OrcaView

/-! ## JavaScript numbers: `Option ℚ` with `none` as NaN -/

/-- A JavaScript number: `some q` is the finite value `q`, `none` is `NaN`. -/
abbrev JSNum := Option ℚ

/-- JS addition: NaN propagates. -/
def jadd : JSNum → JSNum → JSNum
  | some a, some b => some (a + b)
  | _, _ => none

/-- JS subtraction: NaN propagates. -/
def jsub : JSNum → JSNum → JSNum
  | some a, some b => some (a - b)
  | _, _ => none

/-- JS multiplication: NaN propagates. -/
def jmul : JSNum → JSNum → JSNum
  | some a, some b => some (a * b)
  | _, _ => none

/-- JS `Math.abs`: NaN propagates. -/
def jabs : JSNum → JSNum
  | some a => some |a|
  | none => none

/-- JS `<` : any comparison with NaN is false. -/
def jlt : JSNum → JSNum → Bool
  | some a, some b => decide (a < b)
  | _, _ => false

/-- JS `!==` against a plain number: `NaN !== q` is true. -/
def jneq : JSNum → ℚ → Bool
  | some a, b => decide (a ≠ b)
  | none, _ => true

/-- JS `===` between two numbers: `NaN === x` is false, even for `x = NaN`. -/
def jeqNum : JSNum → JSNum → Bool
  | some a, some b => decide (a = b)
  | _, _ => false

/-- JS `===` between two `parseInt` results (`Option ℤ`, `none` = NaN):
`NaN === x` is false. -/
def jeqInt : Option ℤ → Option ℤ → Bool
  | some a, some b => decide (a = b)
  | _, _ => false

/-- JS `Math.sqrt d ≤ t` for a squared distance `d` (`0 ≤ d` whenever it is
not NaN, being a sum of squares) and a non-NaN threshold `t`:
equivalently `0 ≤ t ∧ d ≤ t*t`; false when `d` is NaN. -/
def jsqrtLeQ : JSNum → ℚ → Bool
  | some d, t => decide (0 ≤ t) && decide (d ≤ t * t)
  | none, _ => false

/-! ## Character-level string utilities (JS semantics) -/

/-- Characters matched by the regex class `[-\d.]`. -/
def isNumChar (c : Char) : Bool :=
  c.isDigit || c = '-' || c = '.'

/-- Does `pat` occur as a prefix of `cs`? -/
def listStarts : List Char → List Char → Bool
  | [], _ => true
  | _ :: _, [] => false
  | p :: ps, c :: cs => p = c && listStarts ps cs

/-- Does `pat` occur as a contiguous sublist of `cs` (JS
`String.prototype.includes` / an unanchored regex literal)? -/
def occurs (pat : List Char) : List Char → Bool
  | [] => listStarts pat []
  | c :: cs => listStarts pat (c :: cs) || occurs pat cs

/-- JS `hay.includes(pat)`. -/
def jsIncludes (hay pat : String) : Bool :=
  occurs pat.data hay.data

/-- JS `s.startsWith(pat)`. -/
def jsStarts (s pat : String) : Bool :=
  listStarts pat.data s.data

/-- JS `String.prototype.trim` (both ends; `\s` modelled by
`Char.isWhitespace`). -/
def jsTrim (s : String) : String :=
  String.mk (((s.data.dropWhile Char.isWhitespace).reverse.dropWhile
    Char.isWhitespace).reverse)

/-- Tokenizer for `trimmedLine.split(/\s+/)`: the maximal non-whitespace
runs, in order.  (On the empty string JS returns `[""]` where this returns
`[]`; both have length below every field-count threshold used in the
source, and the source only ever reads tokens after such a length guard.) -/
def wsTokensAux : List Char → List Char → List String
  | acc, [] => if acc.isEmpty then [] else [String.mk acc.reverse]
  | acc, c :: cs =>
    if c.isWhitespace then
      if acc.isEmpty then wsTokensAux [] cs
      else String.mk acc.reverse :: wsTokensAux [] cs
    else wsTokensAux (c :: acc) cs

/-- JS `trimmedLine.split(/\s+/)` (see `wsTokensAux`). -/
def wsTokens (s : String) : List String :=
  wsTokensAux [] s.data

/-- Split on a single character, keeping empty pieces
(JS `s.split(':')` with a one-character separator). -/
def splitCharAux (sep : Char) : List Char → List Char → List String
  | acc, [] => [String.mk acc.reverse]
  | acc, c :: cs =>
    if c = sep then String.mk acc.reverse :: splitCharAux sep [] cs
    else splitCharAux sep (c :: acc) cs

/-- JS `s.split(sep)` for a one-character string separator. -/
def jsSplitChar (s : String) (sep : Char) : List String :=
  splitCharAux sep [] s.data

/-- JS `content.split('\n')`. -/
def jsLines (content : String) : List String :=
  jsSplitChar content '\n'

/-- JS `s.replace(':', '')`: remove the first `':'` only. -/
def removeFirstColon : List Char → List Char
  | [] => []
  | c :: cs => if c = ':' then cs else c :: removeFirstColon cs

/-- JS `parts[0].replace(':', '')`. -/
def jsRemoveFirstColon (s : String) : String :=
  String.mk (removeFirstColon s.data)

/-! ## JS `parseFloat` and `parseInt` -/

/-- Leading decimal digits of a character list, and the remainder. -/
def readDigits : List Char → List Char × List Char
  | [] => ([], [])
  | c :: cs =>
    if c.isDigit then
      let (ds, rest) := readDigits cs
      (c :: ds, rest)
    else ([], c :: cs)

/-- Numeric value of a digit list (most significant first). -/
def digitsVal (ds : List Char) : ℕ :=
  ds.foldl (fun acc c => 10 * acc + (c.toNat - '0'.toNat)) 0

/-- JS `parseFloat` on a character list: skip leading whitespace, optional
sign, integer digits, optional fraction, optional exponent; the longest
valid numeric prefix is converted; NaN (`none`) if no digit is found.
(The special prefix `Infinity` is not modelled; it never arises from the
numeric fields handled here.) -/
def parseFloatChars (cs0 : List Char) : JSNum :=
  let cs := cs0.dropWhile Char.isWhitespace
  let (sgn, cs) : ℚ × List Char :=
    match cs with
    | '-' :: rest => (-1, rest)
    | '+' :: rest => (1, rest)
    | _ => (1, cs)
  let (ip, cs) := readDigits cs
  let (fp, cs) :=
    match cs with
    | '.' :: rest => readDigits rest
    | _ => ([], cs)
  if ip.isEmpty && fp.isEmpty then none
  else
    let mant : ℚ := (digitsVal ip : ℚ) + (digitsVal fp : ℚ) / ((10 : ℚ) ^ fp.length)
    let expo : ℤ :=
      match cs with
      | 'e' :: rest | 'E' :: rest =>
        let (esgn, rest') : ℤ × List Char :=
          match rest with
          | '-' :: r => (-1, r)
          | '+' :: r => (1, r)
          | _ => (1, rest)
        let (eds, _) := readDigits rest'
        if eds.isEmpty then 0 else esgn * (digitsVal eds : ℤ)
      | _ => 0
    some (sgn * mant * (10 : ℚ) ^ expo)

/-- JS `parseFloat` on a string. -/
def jsParseFloat (s : String) : JSNum :=
  parseFloatChars s.data

/-- JS `parseInt` (default radix, decimal input): skip leading whitespace,
optional sign, leading digits; NaN (`none`) if no digit is found.
(Hexadecimal `0x` prefixes never arise from the fields handled here.) -/
def parseIntChars (cs0 : List Char) : Option ℤ :=
  let cs := cs0.dropWhile Char.isWhitespace
  let (sgn, cs) : ℤ × List Char :=
    match cs with
    | '-' :: rest => (-1, rest)
    | '+' :: rest => (1, rest)
    | _ => (1, cs)
  let (ds, _) := readDigits cs
  if ds.isEmpty then none else some (sgn * (digitsVal ds : ℤ))

/-- JS `parseInt` on a string. -/
def jsParseInt (s : String) : Option ℤ :=
  parseIntChars s.data

/-! ## Data model (src/types.ts) -/

/-- `Atom` from src/types.ts.  `index` is always assigned from a list
length in the source, hence `ℕ`. -/
structure Atom where
  index : ℕ
  element : String
  x : JSNum
  y : JSNum
  z : JSNum
deriving DecidableEq, Inhabited, Repr

/-- `Bond` from src/types.ts; `order` is always assigned 1, 2 or 3. -/
structure Bond where
  source : ℕ
  target : ℕ
  order : ℕ
deriving DecidableEq, Inhabited, Repr

/-- `Vibration` from src/types.ts; `mode` is a `parseInt` result or a list
length, `vectors` a list of displacement triples. -/
structure Vibration where
  mode : Option ℤ
  frequency : JSNum
  intensity : JSNum
  vectors : List (JSNum × JSNum × JSNum)
deriving DecidableEq, Inhabited, Repr

/-- `GeometryStep` from src/types.ts; `gradient` is always assigned the
literal `0` in the source. -/
structure GeometryStep where
  cycle : ℕ
  energy : JSNum
  gradient : ℚ
  coordinates : List Atom
deriving DecidableEq, Inhabited, Repr

/-- `ThermoChemistry` from src/types.ts. -/
structure ThermoChemistry where
  temperature : JSNum
  enthalpy : JSNum
  entropy : JSNum
  gibbsFreeEnergy : JSNum
  zpe : JSNum
deriving DecidableEq, Inhabited, Repr

/-- `AtomicCharge` from src/types.ts; `atomIndex` comes from `parseInt`. -/
structure AtomicCharge where
  atomIndex : Option ℤ
  element : String
  charge : JSNum
deriving DecidableEq, Inhabited, Repr

/-- `NMRShielding` from src/types.ts. -/
structure NMRShielding where
  atomIndex : Option ℤ
  element : String
  isotropic : JSNum
  anisotropy : JSNum
deriving DecidableEq, Inhabited, Repr

/-- `MolecularOrbital` from src/types.ts; `no` is guarded by `!isNaN` in
the source before a record is pushed, hence plain `ℤ`. -/
structure MolecularOrbital where
  no : ℤ
  occupancy : JSNum
  energyEh : JSNum
  energyEV : JSNum
deriving DecidableEq, Inhabited, Repr

/-- An SCF convergence entry `{iteration, energy}`; `energy` is guarded by
`!isNaN` in the source, hence plain `ℚ`. -/
structure ScfPoint where
  iteration : ℕ
  energy : ℚ
deriving DecidableEq, Inhabited, Repr

/-- The dipole-moment record.  The source stores
`magnitude = Math.sqrt(x*x + y*y + z*z)`, an irrational value; since no
claim observes the magnitude itself, its radicand `x*x + y*y + z*z` is
stored instead (`magnitudeSq`), which determines it. -/
structure Dipole where
  x : JSNum
  y : JSNum
  z : JSNum
  magnitudeSq : JSNum
deriving DecidableEq, Inhabited, Repr

/-- The aggregate `OrcaData` record (src/types.ts), restricted to the
fields the reduced parser in src/services/orcaParser.ts writes, plus
`nmrShielding`.  `nmrShielding` is declared by src/types.ts but the code
filling it is not part of the reduced source; see `nmrMarker`. -/
structure OrcaData where
  atoms : List Atom
  bonds : List Bond
  trajectory : List GeometryStep
  vibrations : List Vibration
  mullikenCharges : List AtomicCharge
  loewdinCharges : List AtomicCharge
  scfConvergence : List ScfPoint
  orbitals : List MolecularOrbital
  thermo : Option ThermoChemistry
  dipoleMoment : Option Dipole
  nmrShielding : List NMRShielding
deriving DecidableEq, Inhabited, Repr

/-- The initial `combinedData` literal of `parseOrcaFiles`. -/
def emptyOrcaData : OrcaData where
  atoms := []
  bonds := []
  trajectory := []
  vibrations := []
  mullikenCharges := []
  loewdinCharges := []
  scfConvergence := []
  orbitals := []
  thermo := none
  dipoleMoment := none
  nmrShielding := []

/-! ## Bond inference engine (`calculateBonds`, orcaParser.ts:325-415) -/

/-- JS `el.charAt(0).toUpperCase() + el.slice(1).toLowerCase()`. -/
def jsCapitalize (s : String) : String :=
  match s.data with
  | [] => ""
  | c :: rest => String.mk (c.toUpper :: rest.map Char.toLower)

/-- JS `el.toUpperCase()`. -/
def jsUpper (s : String) : String :=
  String.mk (s.data.map Char.toUpper)

/-- The covalent-radius table `radii` (orcaParser.ts:329-336), as a lookup
on its exact keys. -/
def radiiLookup (s : String) : Option ℚ :=
  if s = "H" then some 0.31 else if s = "He" then some 0.28 else
  if s = "Li" then some 1.28 else if s = "Be" then some 0.96 else
  if s = "B" then some 0.84 else if s = "C" then some 0.76 else
  if s = "N" then some 0.71 else if s = "O" then some 0.66 else
  if s = "F" then some 0.57 else if s = "Ne" then some 0.58 else
  if s = "Na" then some 1.66 else if s = "Mg" then some 1.41 else
  if s = "Al" then some 1.21 else if s = "Si" then some 1.11 else
  if s = "P" then some 1.07 else if s = "S" then some 1.05 else
  if s = "Cl" then some 1.02 else if s = "Ar" then some 1.06 else
  if s = "K" then some 2.03 else if s = "Ca" then some 1.76 else
  if s = "Sc" then some 1.70 else if s = "Ti" then some 1.60 else
  if s = "V" then some 1.53 else if s = "Cr" then some 1.39 else
  if s = "Mn" then some 1.39 else if s = "Fe" then some 1.32 else
  if s = "Co" then some 1.26 else if s = "Ni" then some 1.24 else
  if s = "Cu" then some 1.32 else if s = "Zn" then some 1.22 else
  if s = "Ga" then some 1.22 else if s = "Ge" then some 1.20 else
  if s = "As" then some 1.19 else if s = "Se" then some 1.20 else
  if s = "Br" then some 1.20 else if s = "Kr" then some 1.16 else
  if s = "DEFAULT" then some 1.5 else none

/-- `getRadius` (orcaParser.ts:338-341):
`radii[key] || radii[el.toUpperCase()] || radii.DEFAULT` (no table value is
falsy, so `||` is an option-fallback). -/
def getRadius (el : String) : ℚ :=
  ((radiiLookup (jsCapitalize el)).orElse
    (fun _ => radiiLookup (jsUpper el))).getD 1.5

/-- One `bondRef` entry: the typical single, and optional double/triple,
bond lengths. -/
structure BondLen where
  single : ℚ
  double : Option ℚ
  triple : Option ℚ
deriving DecidableEq, Inhabited, Repr

/-- Row `bondRef.C` (orcaParser.ts:345-355).  The keys are kept exactly as
written in the source, including the all-uppercase `CL` and `BR`, which the
capitalized lookup key can never equal. -/
def bondRefC (s : String) : Option BondLen :=
  if s = "C" then some ⟨1.54, some 1.34, some 1.20⟩ else
  if s = "N" then some ⟨1.47, some 1.28, some 1.16⟩ else
  if s = "O" then some ⟨1.43, some 1.20, some 1.13⟩ else
  if s = "S" then some ⟨1.82, some 1.60, none⟩ else
  if s = "H" then some ⟨1.09, none, none⟩ else
  if s = "F" then some ⟨1.35, none, none⟩ else
  if s = "CL" then some ⟨1.77, none, none⟩ else
  if s = "BR" then some ⟨1.94, none, none⟩ else
  if s = "I" then some ⟨2.14, none, none⟩ else none

/-- Row `bondRef.N` (orcaParser.ts:356-360). -/
def bondRefN (s : String) : Option BondLen :=
  if s = "N" then some ⟨1.45, some 1.25, some 1.10⟩ else
  if s = "O" then some ⟨1.40, some 1.20, none⟩ else
  if s = "H" then some ⟨1.01, none, none⟩ else none

/-- Row `bondRef.O` (orcaParser.ts:361-364). -/
def bondRefO (s : String) : Option BondLen :=
  if s = "O" then some ⟨1.48, some 1.21, none⟩ else
  if s = "H" then some ⟨0.96, none, none⟩ else none

/-- Row `bondRef.H` (orcaParser.ts:365-367). -/
def bondRefH (s : String) : Option BondLen :=
  if s = "H" then some ⟨0.74, none, none⟩ else none

/-- `bondRef[a] && bondRef[a][b]` as a single lookup. -/
def bondRefEntry (a b : String) : Option BondLen :=
  if a = "C" then bondRefC b else
  if a = "N" then bondRefN b else
  if a = "O" then bondRefO b else
  if a = "H" then bondRefH b else none

/-- `getBondOrderInfo` (orcaParser.ts:370-377): capitalize both symbols,
try the `(e1, e2)` entry, then the `(e2, e1)` entry, else `null`. -/
def getBondOrderInfo (el1 el2 : String) : Option BondLen :=
  let e1 := jsCapitalize el1
  let e2 := jsCapitalize el2
  (bondRefEntry e1 e2).orElse (fun _ => bondRefEntry e2 e1)

/-- Squared Euclidean distance between two atoms, with NaN propagation
(the source computes `dist = Math.sqrt` of this and only compares it). -/
def dist2 (a b : Atom) : JSNum :=
  let dx := jsub a.x b.x
  let dy := jsub a.y b.y
  let dz := jsub a.z b.z
  jadd (jadd (jmul dx dx) (jmul dy dy)) (jmul dz dz)

/-- The connectivity test `dist <= (r1 + r2) * 1.15 + 0.1`
(orcaParser.ts:393-395), on the squared distance. -/
def bondDecision (el1 el2 : String) (d2 : JSNum) : Bool :=
  jsqrtLeQ d2 ((getRadius el1 + getRadius el2) * 1.15 + 0.1)

/-- The bond-order assignment (orcaParser.ts:396-407): order 3 when a
triple reference exists and
`dist <= (double ? (double + triple)/2 : triple + 0.1)`; else order 2 when
a double reference exists and `dist <= (single + double)/2`; else 1. -/
def codeOrder (el1 el2 : String) (d2 : JSNum) : ℕ :=
  match getBondOrderInfo el1 el2 with
  | none => 1
  | some info =>
    if (match info.triple with
        | some t =>
          jsqrtLeQ d2 (match info.double with
            | some dd => (dd + t) / 2
            | none => t + 0.1)
        | none => false) then 3
    else if (match info.double with
        | some dd => jsqrtLeQ d2 ((info.single + dd) / 2)
        | none => false) then 2
    else 1

/-- `calculateBonds` (orcaParser.ts:325-415): for every pair `i < j`, push
`{source: i, target: j, order}` when the connectivity test passes. -/
def calculateBonds (atoms : List Atom) : List Bond :=
  (List.range atoms.length).flatMap fun i =>
    (List.range' (i + 1) (atoms.length - (i + 1))).filterMap fun j =>
      let a1 := atoms.getD i default
      let a2 := atoms.getD j default
      let d2 := dist2 a1 a2
      if bondDecision a1.element a2.element d2 then
        some { source := i, target := j,
               order := codeOrder a1.element a2.element d2 }
      else none

/-! ## Deterministic regex matchers used by `parseOutputFile`

Each source pattern is embedded as a character scanner.  In every pattern
each greedy repetition (`\s+`, `[-\d.]+`, `[A-Za-z]+`) is immediately
followed either by the end of the pattern or by a character class disjoint
from the repeated one, so the regex engine's backtracking can never
succeed with a shorter match than the maximal one: taking the maximal run
is exact. -/

/-- Maximal leading run of `[-\d.]` characters. -/
def numRun (cs : List Char) : List Char :=
  cs.takeWhile isNumChar

/-- Match a literal at the current position, returning the remainder. -/
def dropLit (pat : String) (cs : List Char) : Option (List Char) :=
  if listStarts pat.data cs then some (cs.drop pat.data.length) else none

/-- Match `\s+` at the current position (maximal run). -/
def dropWs1 : List Char → Option (List Char)
  | [] => none
  | c :: rest =>
    if c.isWhitespace then some (rest.dropWhile Char.isWhitespace) else none

/-- Match `([-\d.]+)` at the current position (maximal run), returning the
captured run and the remainder. -/
def takeNum1 (cs : List Char) : Option (List Char × List Char) :=
  let r := numRun cs
  if r.isEmpty then none else some (r, cs.drop r.length)

/-- Try a positional matcher at every position, left to right
(an unanchored regex search). -/
def scanFor (f : List Char → Option α) : List Char → Option α
  | [] => f []
  | c :: cs =>
    match f (c :: cs) with
    | some v => some v
    | none => scanFor f cs

/-- `coordRegex = /^\s*([A-Za-z]+)\s+([-\d.]+)\s+([-\d.]+)\s+([-\d.]+)/`
applied to the trimmed line (orcaParser.ts:54): the first token must be
all-alphabetic, the second and third all `[-\d.]`, and the fourth must
start with a `[-\d.]` run (only that run is captured). -/
def parseCoordLine (line : String) : Option (String × JSNum × JSNum × JSNum) :=
  match wsTokens line with
  | t1 :: t2 :: t3 :: t4 :: _ =>
    if t1.data.all Char.isAlpha && t2.data.all isNumChar
        && t3.data.all isNumChar && !(numRun t4.data).isEmpty then
      some (t1, jsParseFloat t2, jsParseFloat t3,
            parseFloatChars (numRun t4.data))
    else none
  | _ => none

/-- `irStartRegex = /^Mode\s+freq\s+eps\s+Int/` (orcaParser.ts:57),
anchored at the start of the trimmed line. -/
def irStart (line : String) : Bool :=
  ((dropLit "Mode" line.data).bind fun cs =>
   (dropWs1 cs).bind fun cs =>
   (dropLit "freq" cs).bind fun cs =>
   (dropWs1 cs).bind fun cs =>
   (dropLit "eps" cs).bind fun cs =>
   (dropWs1 cs).bind fun cs =>
   dropLit "Int" cs).isSome

/-- `/FINAL SINGLE POINT ENERGY\s+([-\d.]+)/` at one position. -/
def fspeAt (cs : List Char) : Option JSNum :=
  (dropLit "FINAL SINGLE POINT ENERGY" cs).bind fun cs =>
  (dropWs1 cs).bind fun cs =>
  (takeNum1 cs).map fun rr => parseFloatChars rr.1

/-- Search a raw line for the final-single-point-energy pattern
(orcaParser.ts:97); `some v` when the pattern occurs, `v` being the
`parseFloat` of the capture (`v = none` would be a NaN capture). -/
def extractFSPE (line : String) : Option JSNum :=
  scanFor fspeAt line.data

/-- The lookback window `lines.slice(Math.max(0, i-100), i)`
(orcaParser.ts:97). -/
def fspeWindow (lines : List String) (i : ℕ) : List String :=
  (lines.take i).drop (i - 100)

/-- The energy attached to a trajectory step pushed at raw-line index `i`:
the first match of the energy pattern in the lookback window, or `0` if
the pattern does not occur there (orcaParser.ts:97-99). -/
def windowEnergy (lines : List String) (i : ℕ) : JSNum :=
  match ((fspeWindow lines i).filterMap extractFSPE).head? with
  | some v => v
  | none => some 0

/-- A thermochemistry pattern `/<marker>\s+\.\.\.\s+([-\d.]+)\s+<tail>/`
at one position (orcaParser.ts:60-64). -/
def thermoAt (marker tail : String) (cs : List Char) : Option JSNum :=
  (dropLit marker cs).bind fun cs =>
  (dropWs1 cs).bind fun cs =>
  (dropLit "..." cs).bind fun cs =>
  (dropWs1 cs).bind fun cs =>
  (takeNum1 cs).bind fun rr =>
  (dropWs1 rr.2).bind fun cs =>
  (dropLit tail cs).map fun _ => parseFloatChars rr.1

/-- Unanchored search for a thermochemistry pattern on the trimmed line. -/
def thermoScan (marker tail : String) (line : String) : Option JSNum :=
  scanFor (thermoAt marker tail) line.data

/-- `dipoleRegex = /Total Dipole Moment\s+:\s+([-\d.]+)\s+([-\d.]+)\s+([-\d.]+)/`
at one position (orcaParser.ts:71). -/
def dipoleAt (cs : List Char) : Option (JSNum × JSNum × JSNum) :=
  (dropLit "Total Dipole Moment" cs).bind fun cs =>
  (dropWs1 cs).bind fun cs =>
  (dropLit ":" cs).bind fun cs =>
  (dropWs1 cs).bind fun cs =>
  (takeNum1 cs).bind fun r1 =>
  (dropWs1 r1.2).bind fun cs =>
  (takeNum1 cs).bind fun r2 =>
  (dropWs1 r2.2).bind fun cs =>
  (takeNum1 cs).map fun r3 =>
    (parseFloatChars r1.1, parseFloatChars r2.1, parseFloatChars r3.1)

/-- Unanchored search for the dipole pattern on the trimmed line. -/
def dipoleScan (line : String) : Option (JSNum × JSNum × JSNum) :=
  scanFor dipoleAt line.data

/-! ## The output section scanner (`parseOutputFile`, orcaParser.ts:45-278) -/

/-- The scanner's mutable locals (orcaParser.ts:50-79) together with the
aggregate record it writes.  `readingNMR` belongs to the spec-modelled NMR
section (see `nmrMarker`). -/
structure ScanSt where
  inCoords : Bool
  tempAtoms : List Atom
  readingIR : Bool
  readingMulliken : Bool
  readingLoewdin : Bool
  readingOrbitals : Bool
  readingNMR : Bool
  data : OrcaData
deriving DecidableEq, Inhabited, Repr

/-- Coordinate-line handling while `inCoords` (orcaParser.ts:111-125). -/
def coordLineUpdate (line : String) (s : ScanSt) : ScanSt :=
  match parseCoordLine line with
  | some (el, x, y, z) =>
    { s with tempAtoms :=
        s.tempAtoms ++ [⟨s.tempAtoms.length, el, x, y, z⟩] }
  | none =>
    if line = "" || jsIncludes line "-------" then
      if s.tempAtoms.length > 0 then { s with inCoords := false } else s
    else s

/-- Close of a coordinate block at raw-line index `i`
(orcaParser.ts:93-109): leave coordinate mode and, if atoms were
collected, push them as a new trajectory step whose energy comes from the
lookback window, and make them the current atom set. -/
def coordCloseUpdate (lines : List String) (i : ℕ) (s : ScanSt) : ScanSt :=
  let s := { s with inCoords := false }
  if s.tempAtoms.length > 0 then
    { s with data := { s.data with
        trajectory := s.data.trajectory ++
          [⟨s.data.trajectory.length, windowEnergy lines i, 0, s.tempAtoms⟩],
        atoms := s.tempAtoms } }
  else s

/-- IR-table line handling while `readingIR` (orcaParser.ts:134-152). -/
def irLineUpdate (line : String) (s : ScanSt) : ScanSt :=
  if line = "" || jsIncludes line "-----------" then
    { s with readingIR := false }
  else
    match wsTokens line with
    | p0 :: p1 :: _ :: p3 :: _ =>
      if jsIncludes p0 ":" then
        let mode := jsParseInt (jsRemoveFirstColon p0)
        let freq := jsParseFloat p1
        let intensity := jsParseFloat p3
        if (s.data.vibrations.find? fun v => jeqInt v.mode mode).isNone
            && jneq freq 0 then
          { s with data := { s.data with vibrations :=
              s.data.vibrations ++ [⟨mode, freq, intensity, []⟩] } }
        else s
      else s
    | _ => s

/-- Thermochemistry matching on every line (orcaParser.ts:155-169). -/
def thermoUpdate (line : String) (s : ScanSt) : ScanSt :=
  let hM := thermoScan "Total Enthalpy" "Eh" line
  let sM := thermoScan "Total entropy correction" "Eh" line
  let gM := thermoScan "Final Gibbs free energy" "Eh" line
  let zM := thermoScan "Zero point energy" "Eh" line
  let tM := thermoScan "Temperature" "K" line
  if hM.isSome || sM.isSome || gM.isSome || zM.isSome || tM.isSome then
    let th := s.data.thermo.getD ⟨some 298.15, some 0, some 0, some 0, some 0⟩
    let th := match hM with | some v => { th with enthalpy := v } | none => th
    let th := match sM with | some v => { th with entropy := v } | none => th
    let th := match gM with | some v => { th with gibbsFreeEnergy := v } | none => th
    let th := match zM with | some v => { th with zpe := v } | none => th
    let th := match tM with | some v => { th with temperature := v } | none => th
    { s with data := { s.data with thermo := some th } }
  else s

/-- A charge-table row (orcaParser.ts:182-192): split on `':'`, require
exactly two parts and at least two whitespace fields on the left;
`parseFloat` of the right part is the charge (possibly NaN). -/
def parseChargeLine (line : String) : Option AtomicCharge :=
  let parts := jsSplitChar line ':'
  if parts.length = 2 then
    match wsTokens (jsTrim (parts.getD 0 "")) with
    | l0 :: l1 :: _ =>
      some ⟨jsParseInt l0, l1, jsParseFloat (parts.getD 1 "")⟩
    | _ => none
  else none

/-- Mulliken-table line handling while `readingMulliken`
(orcaParser.ts:178-195). -/
def mullikenLineUpdate (line : String) (s : ScanSt) : ScanSt :=
  if line = "" || jsIncludes line "Sum of atomic charges" then
    { s with readingMulliken := false }
  else if !(jsIncludes line "------") then
    match parseChargeLine line with
    | some c => { s with data := { s.data with mullikenCharges :=
        s.data.mullikenCharges ++ [c] } }
    | none => s
  else s

/-- Loewdin-table line handling while `readingLoewdin`
(orcaParser.ts:203-220). -/
def loewdinLineUpdate (line : String) (s : ScanSt) : ScanSt :=
  if line = "" || jsIncludes line "Sum of atomic charges" then
    { s with readingLoewdin := false }
  else if !(jsIncludes line "------") then
    match parseChargeLine line with
    | some c => { s with data := { s.data with loewdinCharges :=
        s.data.loewdinCharges ++ [c] } }
    | none => s
  else s

/-- SCF total-energy matching on every line (orcaParser.ts:223-229):
records with NaN energy are guarded out by `!isNaN(e)`. -/
def scfUpdate (line : String) (s : ScanSt) : ScanSt :=
  if jsStarts line "Total Energy" && jsIncludes line "Eh" then
    match (match (wsTokens line).get? 3 with
           | some p => jsParseFloat p
           | none => none : JSNum) with
    | some q => { s with data := { s.data with scfConvergence :=
        s.data.scfConvergence ++
          [⟨s.data.scfConvergence.length + 1, q⟩] } }
    | none => s
  else s

/-- Dipole-moment matching on every line (orcaParser.ts:232-239); see
`Dipole.magnitudeSq` for the stored magnitude. -/
def dipoleUpdate (line : String) (s : ScanSt) : ScanSt :=
  match dipoleScan line with
  | some (x, y, z) =>
    let mag2 := jadd (jadd (jmul x x) (jmul y y)) (jmul z z)
    { s with data := { s.data with dipoleMoment := some (Dipole.mk x y z mag2) } }
  | none => s

/-- Orbital-table line handling while `readingOrbitals`
(orcaParser.ts:248-264): only the orbital number is guarded by `!isNaN`. -/
def orbitalLineUpdate (line : String) (s : ScanSt) : ScanSt :=
  if line = "" || jsIncludes line "-------" then
    { s with readingOrbitals := false }
  else
    match wsTokens (jsTrim line) with
    | p0 :: p1 :: p2 :: p3 :: _ =>
      match jsParseInt p0 with
      | some no =>
        { s with data := { s.data with orbitals := s.data.orbitals ++
            [⟨no, jsParseFloat p1, jsParseFloat p2, jsParseFloat p3⟩] } }
      | none => s
    | _ => s

/-- Modelled from the spec: the NMR shielding section of the scanner is
declared by src/types.ts (`OrcaData.nmrShielding`) but its handling code
is not part of the reduced parser under src; per spec section 4.2 it is a
marker-driven table section.  The marker literal is the program's
canonical NMR table header. -/
def nmrMarker (line : String) : Bool :=
  jsIncludes line "CHEMICAL SHIELDING SUMMARY"

/-- Modelled from the spec: an NMR table row
`index element isotropic anisotropy`; malformed lines are skipped, the
section ends at an empty or dashed line (spec section 4.2). -/
def nmrLineUpdate (line : String) (s : ScanSt) : ScanSt :=
  if line = "" || jsIncludes line "-------" then
    { s with readingNMR := false }
  else
    match wsTokens line with
    | p0 :: p1 :: p2 :: p3 :: _ =>
      match jsParseInt p0, jsParseFloat p2, jsParseFloat p3 with
      | some idx, some iso, some aniso =>
        { s with data := { s.data with nmrShielding :=
            s.data.nmrShielding ++ [⟨some idx, p1, some iso, some aniso⟩] } }
      | _, _, _ => s
    | _ => s

/-- The coordinate-block-close test and update (orcaParser.ts:93-109),
guarded by its `includes` conditions. -/
def closeStage (lines : List String) (i : ℕ) (line : String) (s : ScanSt) : ScanSt :=
  if jsIncludes line "CARTESIAN COORDINATES (A.U.)"
      || jsIncludes line "INTERNAL COORDINATES" then
    coordCloseUpdate lines i s
  else s

/-- The `if (inCoords)` block (orcaParser.ts:111-125). -/
def coordStage (line : String) (s : ScanSt) : ScanSt :=
  if s.inCoords then coordLineUpdate line s else s

/-- The `if (readingIR)` block (orcaParser.ts:134-152). -/
def irStage (line : String) (s : ScanSt) : ScanSt :=
  if s.readingIR then irLineUpdate line s else s

/-- The `if (readingMulliken)` block (orcaParser.ts:178-195). -/
def mullikenStage (line : String) (s : ScanSt) : ScanSt :=
  if s.readingMulliken then mullikenLineUpdate line s else s

/-- The `if (readingLoewdin)` block (orcaParser.ts:203-220). -/
def loewdinStage (line : String) (s : ScanSt) : ScanSt :=
  if s.readingLoewdin then loewdinLineUpdate line s else s

/-- The `if (readingOrbitals)` block (orcaParser.ts:248-264). -/
def orbitalStage (line : String) (s : ScanSt) : ScanSt :=
  if s.readingOrbitals then orbitalLineUpdate line s else s

/-- The `if (readingNMR)` block (spec-modelled; see `nmrMarker`). -/
def nmrStage (line : String) (s : ScanSt) : ScanSt :=
  if s.readingNMR then nmrLineUpdate line s else s

/-- One iteration of the scanner loop (orcaParser.ts:81-266) on raw-line
index `i`; returns the new state and the next index (`continue` after a
marker skips one extra line, the orbital marker skips three).  The
section markers are tested in source order; blocks without a `continue`
are threaded sequentially on the same line, as the named stages above.
The final spec-modelled NMR branch follows spec section 4.2: a marker
occurring mid-read keeps the partial collection, otherwise it resets
it. -/
def scanStep (lines : List String) (i : ℕ) (s : ScanSt) : ScanSt × ℕ :=
  let line := jsTrim (lines.getD i "")
  if jsIncludes line "CARTESIAN COORDINATES (ANGSTROEM)" then
    ({ s with inCoords := true, tempAtoms := [] }, i + 2)
  else
    let s1 := coordStage line (closeStage lines i line s)
    if irStart line then ({ s1 with readingIR := true }, i + 2)
    else
      let s2 := thermoUpdate line (irStage line s1)
      if jsIncludes line "MULLIKEN ATOMIC CHARGES" then
        ({ s2 with readingMulliken := true,
                   data := { s2.data with mullikenCharges := [] } }, i + 2)
      else
        let s3 := mullikenStage line s2
        if jsIncludes line "LOEWDIN ATOMIC CHARGES" then
          ({ s3 with readingLoewdin := true,
                     data := { s3.data with loewdinCharges := [] } }, i + 2)
        else
          let s4 := dipoleUpdate line (scfUpdate line (loewdinStage line s3))
          if jsIncludes line "ORBITAL ENERGIES" then
            ({ s4 with readingOrbitals := true,
                       data := { s4.data with orbitals := [] } }, i + 4)
          else
            let s5 := orbitalStage line s4
            if nmrMarker line then
              ({ s5 with readingNMR := true,
                         data := if s5.readingNMR then s5.data
                                 else { s5.data with nmrShielding := [] } }, i + 2)
            else (nmrStage line s5, i + 1)

/-- The scanner loop, fuelled: each iteration advances the index by at
least one, so `lines.length` fuel always suffices. -/
def scanRun (lines : List String) : ℕ → ℕ → ScanSt → ScanSt
  | 0, _, s => s
  | fuel + 1, i, s =>
    if i < lines.length then
      let si := scanStep lines i s
      scanRun lines fuel si.2 si.1
    else s

/-- `parseOutputFile` (orcaParser.ts:45-278): run the scanner over the
split lines, then push a trailing step if the file ends inside a
coordinate block (orcaParser.ts:269-277). -/
def parseOutputFile (content : String) (data : OrcaData) : OrcaData :=
  let lines := jsLines content
  let s := scanRun lines lines.length 0
    ⟨false, [], false, false, false, false, false, data⟩
  if s.inCoords && s.tempAtoms.length > 0 then
    { s.data with
      trajectory := s.data.trajectory ++
        [⟨s.data.trajectory.length, some 0, 0, s.tempAtoms⟩],
      atoms := s.tempAtoms }
  else s.data

/-! ## The hessian parser (`parseHessianFile`, orcaParser.ts:280-323) -/

/-- The hessian parser's state: the current `$`-section name and the
aggregate record. -/
structure HessSt where
  sect : String
  data : OrcaData
deriving DecidableEq, Inhabited, Repr

/-- One iteration of the hessian loop (orcaParser.ts:285-322). -/
def hessStep (lines : List String) (i : ℕ) (s : HessSt) : HessSt × ℕ :=
  let line := jsTrim (lines.getD i "")
  if jsStarts line "$ir_spectrum" then ({ s with sect := "ir_spectrum" }, i + 2)
  else if jsStarts line "$normal_modes" then
    ({ s with sect := "normal_modes" }, i + 2)
  else if jsStarts line "$end" then ({ s with sect := "" }, i + 1)
  else
    if s.sect = "ir_spectrum" then
      match wsTokens line with
      | p0 :: _ :: p2 :: _ =>
        (match jsParseFloat p0 with
         | some f =>
           if 0 < f then
             if (s.data.vibrations.findIdx? fun v =>
                   jlt (jabs (jsub v.frequency (some f))) (some 0.1)).isNone then
               { s with data := { s.data with vibrations :=
                   s.data.vibrations ++
                     [⟨some ((s.data.vibrations.length : ℤ) + 6), some f,
                       jsParseFloat p2, []⟩] } }
             else s
           else s
         | none => s, i + 1)
      | _ => (s, i + 1)
    else (s, i + 1)

/-- The hessian loop, fuelled like `scanRun`. -/
def hessRun (lines : List String) : ℕ → ℕ → HessSt → HessSt
  | 0, _, s => s
  | fuel + 1, i, s =>
    if i < lines.length then
      let si := hessStep lines i s
      hessRun lines fuel si.2 si.1
    else s

/-- `parseHessianFile` (orcaParser.ts:280-323). -/
def parseHessianFile (content : String) (data : OrcaData) : OrcaData :=
  let lines := jsLines content
  (hessRun lines lines.length 0 ⟨"", data⟩).data

/-! ## The orchestrator (`parseOrcaFiles`, orcaParser.ts:4-43) -/

/-- An input file: its name and its decoded text content (the
`FileReader` I/O is outside the model; parsing only ever sees the full
text). -/
structure InputFile where
  name : String
  content : String
deriving DecidableEq, Inhabited, Repr

/-- JS `s.endsWith(pat)`. -/
def jsEndsWith (s pat : String) : Bool :=
  listStarts pat.data.reverse s.data.reverse

/-- `parseOrcaFiles` (orcaParser.ts:4-43): route each file by the
classification heuristic, fold into one aggregate record, then recompute
the bond list from the final atom set when it is nonempty. -/
def parseOrcaFiles (files : List InputFile) : OrcaData :=
  let d := files.foldl (fun d f =>
    if jsEndsWith f.name ".hess" || jsIncludes f.content "$ir_spectrum" then
      parseHessianFile f.content d
    else parseOutputFile f.content d) emptyOrcaData
  if d.atoms.length > 0 then { d with bonds := calculateBonds d.atoms }
  else d

/-! ## Specification-side definitions (for refinement claims) -/

/-- The connectivity criterion exactly as the specification words it
(spec section 4.4): the Euclidean distance `d` satisfies
`d ≤ (r1 + r2) × 1.15 + 0.1`. -/
def specConn (el1 el2 : String) (d : ℝ) : Prop :=
  d ≤ (((getRadius el1 + getRadius el2) * 1.15 + 0.1 : ℚ) : ℝ)

/-- The bond order exactly as the specification words it (spec section
4.4), as a predicate on the Euclidean distance `d`: order 3 when the
element pair has a triple reference and `d` is at or below the midpoint
of the double and triple reference lengths (or, with no double
reference, within 0.1 Å of the triple reference); else 2 when a double
reference exists and `d` is at or below the midpoint of the single and
double references; else 1; pairs absent from the reference table always
get order 1. -/
def specOrderIs (el1 el2 : String) (d : ℝ) (o : ℕ) : Prop :=
  match getBondOrderInfo el1 el2 with
  | none => o = 1
  | some info =>
    match info.triple, info.double with
    | some t, some dd =>
      if d ≤ (((dd + t) / 2 : ℚ) : ℝ) then o = 3
      else if d ≤ (((info.single + dd) / 2 : ℚ) : ℝ) then o = 2
      else o = 1
    | some t, none =>
      if |d - ((t : ℚ) : ℝ)| ≤ 0.1 then o = 3 else o = 1
    | none, some dd =>
      if d ≤ (((info.single + dd) / 2 : ℚ) : ℝ) then o = 2 else o = 1
    | none, none => o = 1

/-- Density of trajectory cycle numbers: entry `k` carries cycle `k`. -/
def cycleOK (t : List GeometryStep) : Prop :=
  ∀ k, (h : k < t.length) → (t.get ⟨k, h⟩).cycle = k



/-! ## Concrete inputs used by counterexamples and witnesses -/

/-- An optimization stream with two geometry blocks and one
final-single-point-energy marker between them (after the first block has
closed and been pushed). -/
def exC2 : String :=
  "CARTESIAN COORDINATES (ANGSTROEM)\n---\nH 0.0 0.0 0.0\n\nCARTESIAN COORDINATES (A.U.)\nFINAL SINGLE POINT ENERGY  -75.5\nCARTESIAN COORDINATES (ANGSTROEM)\n---\nH 0.0 0.0 0.0\n\nCARTESIAN COORDINATES (A.U.)\n"

/-- A generic output with one atom and an IR table declaring frequency
44.92 with intensity 0.0 (the hessian merge scenario's first file). -/
def outC3 : String :=
  "CARTESIAN COORDINATES (ANGSTROEM)\n---\nH 0.0 0.0 0.0\n\nCARTESIAN COORDINATES (A.U.)\nMode   freq   eps  Int\n---\n6:   44.92  0.0001  0.0\n\n"

/-- A companion hessian file declaring frequency 44.95 (the hessian
merge scenario's second file). -/
def hessC3 : String :=
  "$ir_spectrum\n3\n44.95  0.001  7.5\n$end\n"

/-- The hessian merge scenario's file list. -/
def filesC3 : List InputFile :=
  [⟨"a.out", outC3⟩, ⟨"b.hess", hessC3⟩]

/-- A stream in which the Mulliken marker occurs a second time while the
section is still mid-read (no terminator between the two markers). -/
def exC4 : String :=
  "MULLIKEN ATOMIC CHARGES\n---\n0 C : -0.5\nMULLIKEN ATOMIC CHARGES\n---\n1 O : 0.5\n\n"

/-- A Mulliken section whose only row has the right shape but a
non-numeric charge field. -/
def exC5 : String :=
  "MULLIKEN ATOMIC CHARGES\n---\n0 C : abc\n\n"

/-- A small output with no NMR marker (for the missing-section claim). -/
def exC6files : List InputFile :=
  [⟨"a.out", "Total Energy       :       -5.25 Eh\nsome other line\n"⟩]

/-- Two hydrogen atoms 0.74 Å apart (the round-trip scenario's atoms). -/
def hhAtoms : List Atom :=
  [⟨0, "H", some 0, some 0, some 0⟩, ⟨1, "H", some 0, some 0, some 0.74⟩]

/-- Two carbon atoms 1.20 Å apart (the triple-bond boundary scenario). -/
def ccAtoms : List Atom :=
  [⟨0, "C", some 0, some 0, some 0⟩, ⟨1, "C", some 0, some 0, some 1.2⟩]

/-- A one-block stream used by the trajectory witnesses. -/
def exC7files : List InputFile :=
  [⟨"a.out", exC2⟩]

/-- A scanner state holding one collected atom, as it stands when a
coordinate block is about to close. -/
def stC2 : ScanSt :=
  ⟨false, [⟨0, "H", some 0, some 0, some 0⟩],
   false, false, false, false, false, emptyOrcaData⟩

/-- A scanner state mid-read in the Mulliken section with one partial
row already collected. -/
def stC4 : ScanSt :=
  ⟨false, [], false, true, false, false, false,
   { emptyOrcaData with mullikenCharges := [⟨some 0, "C", some (-1/2)⟩] }⟩

/-- A scanner state mid-read in the Mulliken section with an empty
collection. -/
def stC5 : ScanSt :=
  ⟨false, [], false, true, false, false, false, emptyOrcaData⟩

/-! ## Frame lemmas for the scanner's per-line updaters -/

theorem coordLineUpdate_data (line : String) (s : ScanSt) :
    (coordLineUpdate line s).data = s.data := by
  simp only [coordLineUpdate]; repeat' split
  all_goals rfl

theorem coordLineUpdate_readingNMR (line : String) (s : ScanSt) :
    (coordLineUpdate line s).readingNMR = s.readingNMR := by
  simp only [coordLineUpdate]; repeat' split
  all_goals rfl

theorem coordCloseUpdate_readingNMR (lines : List String) (i : ℕ) (s : ScanSt) :
    (coordCloseUpdate lines i s).readingNMR = s.readingNMR := by
  simp only [coordCloseUpdate]; repeat' split
  all_goals rfl

theorem coordCloseUpdate_nmrShielding (lines : List String) (i : ℕ) (s : ScanSt) :
    (coordCloseUpdate lines i s).data.nmrShielding = s.data.nmrShielding := by
  simp only [coordCloseUpdate]; repeat' split
  all_goals rfl

theorem irLineUpdate_trajectory (line : String) (s : ScanSt) :
    (irLineUpdate line s).data.trajectory = s.data.trajectory := by
  simp only [irLineUpdate]; repeat' split
  all_goals rfl

theorem irLineUpdate_readingNMR (line : String) (s : ScanSt) :
    (irLineUpdate line s).readingNMR = s.readingNMR := by
  simp only [irLineUpdate]; repeat' split
  all_goals rfl

theorem irLineUpdate_nmrShielding (line : String) (s : ScanSt) :
    (irLineUpdate line s).data.nmrShielding = s.data.nmrShielding := by
  simp only [irLineUpdate]; repeat' split
  all_goals rfl

theorem thermoUpdate_trajectory (line : String) (s : ScanSt) :
    (thermoUpdate line s).data.trajectory = s.data.trajectory := by
  simp only [thermoUpdate]; repeat' split
  all_goals rfl

theorem thermoUpdate_readingNMR (line : String) (s : ScanSt) :
    (thermoUpdate line s).readingNMR = s.readingNMR := by
  simp only [thermoUpdate]; repeat' split
  all_goals rfl

theorem thermoUpdate_nmrShielding (line : String) (s : ScanSt) :
    (thermoUpdate line s).data.nmrShielding = s.data.nmrShielding := by
  simp only [thermoUpdate]; repeat' split
  all_goals rfl

theorem mullikenLineUpdate_trajectory (line : String) (s : ScanSt) :
    (mullikenLineUpdate line s).data.trajectory = s.data.trajectory := by
  simp only [mullikenLineUpdate]; repeat' split
  all_goals rfl

theorem mullikenLineUpdate_readingNMR (line : String) (s : ScanSt) :
    (mullikenLineUpdate line s).readingNMR = s.readingNMR := by
  simp only [mullikenLineUpdate]; repeat' split
  all_goals rfl

theorem mullikenLineUpdate_nmrShielding (line : String) (s : ScanSt) :
    (mullikenLineUpdate line s).data.nmrShielding = s.data.nmrShielding := by
  simp only [mullikenLineUpdate]; repeat' split
  all_goals rfl

theorem loewdinLineUpdate_trajectory (line : String) (s : ScanSt) :
    (loewdinLineUpdate line s).data.trajectory = s.data.trajectory := by
  simp only [loewdinLineUpdate]; repeat' split
  all_goals rfl

theorem loewdinLineUpdate_readingNMR (line : String) (s : ScanSt) :
    (loewdinLineUpdate line s).readingNMR = s.readingNMR := by
  simp only [loewdinLineUpdate]; repeat' split
  all_goals rfl

theorem loewdinLineUpdate_nmrShielding (line : String) (s : ScanSt) :
    (loewdinLineUpdate line s).data.nmrShielding = s.data.nmrShielding := by
  simp only [loewdinLineUpdate]; repeat' split
  all_goals rfl

theorem scfUpdate_trajectory (line : String) (s : ScanSt) :
    (scfUpdate line s).data.trajectory = s.data.trajectory := by
  simp only [scfUpdate]; repeat' split
  all_goals rfl

theorem scfUpdate_readingNMR (line : String) (s : ScanSt) :
    (scfUpdate line s).readingNMR = s.readingNMR := by
  simp only [scfUpdate]; repeat' split
  all_goals rfl

theorem scfUpdate_nmrShielding (line : String) (s : ScanSt) :
    (scfUpdate line s).data.nmrShielding = s.data.nmrShielding := by
  simp only [scfUpdate]; repeat' split
  all_goals rfl

theorem dipoleUpdate_trajectory (line : String) (s : ScanSt) :
    (dipoleUpdate line s).data.trajectory = s.data.trajectory := by
  simp only [dipoleUpdate]; repeat' split
  all_goals rfl

theorem dipoleUpdate_readingNMR (line : String) (s : ScanSt) :
    (dipoleUpdate line s).readingNMR = s.readingNMR := by
  simp only [dipoleUpdate]; repeat' split
  all_goals rfl

theorem dipoleUpdate_nmrShielding (line : String) (s : ScanSt) :
    (dipoleUpdate line s).data.nmrShielding = s.data.nmrShielding := by
  simp only [dipoleUpdate]; repeat' split
  all_goals rfl

theorem orbitalLineUpdate_trajectory (line : String) (s : ScanSt) :
    (orbitalLineUpdate line s).data.trajectory = s.data.trajectory := by
  simp only [orbitalLineUpdate]; repeat' split
  all_goals rfl

theorem orbitalLineUpdate_readingNMR (line : String) (s : ScanSt) :
    (orbitalLineUpdate line s).readingNMR = s.readingNMR := by
  simp only [orbitalLineUpdate]; repeat' split
  all_goals rfl

theorem orbitalLineUpdate_nmrShielding (line : String) (s : ScanSt) :
    (orbitalLineUpdate line s).data.nmrShielding = s.data.nmrShielding := by
  simp only [orbitalLineUpdate]; repeat' split
  all_goals rfl

theorem nmrLineUpdate_trajectory (line : String) (s : ScanSt) :
    (nmrLineUpdate line s).data.trajectory = s.data.trajectory := by
  simp only [nmrLineUpdate]; repeat' split
  all_goals rfl

/-! ## Frame lemmas for the pipeline stages -/

theorem closeStage_readingNMR (lines : List String) (i : ℕ) (line : String) (s : ScanSt) :
    (closeStage lines i line s).readingNMR = s.readingNMR := by
  simp only [closeStage]; split
  · exact coordCloseUpdate_readingNMR lines i s
  · rfl

theorem closeStage_nmrShielding (lines : List String) (i : ℕ) (line : String) (s : ScanSt) :
    (closeStage lines i line s).data.nmrShielding = s.data.nmrShielding := by
  simp only [closeStage]; split
  · exact coordCloseUpdate_nmrShielding lines i s
  · rfl

theorem coordStage_data (line : String) (s : ScanSt) :
    (coordStage line s).data = s.data := by
  simp only [coordStage]; split
  · exact coordLineUpdate_data line s
  · rfl

theorem coordStage_readingNMR (line : String) (s : ScanSt) :
    (coordStage line s).readingNMR = s.readingNMR := by
  simp only [coordStage]; split
  · exact coordLineUpdate_readingNMR line s
  · rfl

theorem irStage_trajectory (line : String) (s : ScanSt) :
    (irStage line s).data.trajectory = s.data.trajectory := by
  simp only [irStage]; split
  · exact irLineUpdate_trajectory line s
  · rfl

theorem irStage_readingNMR (line : String) (s : ScanSt) :
    (irStage line s).readingNMR = s.readingNMR := by
  simp only [irStage]; split
  · exact irLineUpdate_readingNMR line s
  · rfl

theorem irStage_nmrShielding (line : String) (s : ScanSt) :
    (irStage line s).data.nmrShielding = s.data.nmrShielding := by
  simp only [irStage]; split
  · exact irLineUpdate_nmrShielding line s
  · rfl

theorem mullikenStage_trajectory (line : String) (s : ScanSt) :
    (mullikenStage line s).data.trajectory = s.data.trajectory := by
  simp only [mullikenStage]; split
  · exact mullikenLineUpdate_trajectory line s
  · rfl

theorem mullikenStage_readingNMR (line : String) (s : ScanSt) :
    (mullikenStage line s).readingNMR = s.readingNMR := by
  simp only [mullikenStage]; split
  · exact mullikenLineUpdate_readingNMR line s
  · rfl

theorem mullikenStage_nmrShielding (line : String) (s : ScanSt) :
    (mullikenStage line s).data.nmrShielding = s.data.nmrShielding := by
  simp only [mullikenStage]; split
  · exact mullikenLineUpdate_nmrShielding line s
  · rfl

theorem loewdinStage_trajectory (line : String) (s : ScanSt) :
    (loewdinStage line s).data.trajectory = s.data.trajectory := by
  simp only [loewdinStage]; split
  · exact loewdinLineUpdate_trajectory line s
  · rfl

theorem loewdinStage_readingNMR (line : String) (s : ScanSt) :
    (loewdinStage line s).readingNMR = s.readingNMR := by
  simp only [loewdinStage]; split
  · exact loewdinLineUpdate_readingNMR line s
  · rfl

theorem loewdinStage_nmrShielding (line : String) (s : ScanSt) :
    (loewdinStage line s).data.nmrShielding = s.data.nmrShielding := by
  simp only [loewdinStage]; split
  · exact loewdinLineUpdate_nmrShielding line s
  · rfl

theorem orbitalStage_trajectory (line : String) (s : ScanSt) :
    (orbitalStage line s).data.trajectory = s.data.trajectory := by
  simp only [orbitalStage]; split
  · exact orbitalLineUpdate_trajectory line s
  · rfl

theorem orbitalStage_readingNMR (line : String) (s : ScanSt) :
    (orbitalStage line s).readingNMR = s.readingNMR := by
  simp only [orbitalStage]; split
  · exact orbitalLineUpdate_readingNMR line s
  · rfl

theorem orbitalStage_nmrShielding (line : String) (s : ScanSt) :
    (orbitalStage line s).data.nmrShielding = s.data.nmrShielding := by
  simp only [orbitalStage]; split
  · exact orbitalLineUpdate_nmrShielding line s
  · rfl

theorem nmrStage_trajectory (line : String) (s : ScanSt) :
    (nmrStage line s).data.trajectory = s.data.trajectory := by
  simp only [nmrStage]; split
  · exact nmrLineUpdate_trajectory line s
  · rfl

/-! ## Trajectory cycle density machinery -/

theorem cycleOK_append (t : List GeometryStep) (e : JSNum) (g : ℚ) (c : List Atom)
    (h : cycleOK t) : cycleOK (t ++ [⟨t.length, e, g, c⟩]) := by
  intro k hk
  rw [List.length_append, List.length_singleton] at hk
  rcases Nat.lt_or_ge k t.length with hlt | hge
  · rw [List.get_eq_getElem, List.getElem_append_left hlt]
    exact h k hlt
  · have hk' : k = t.length := by omega
    subst hk'
    simp

theorem coordCloseUpdate_cycleOK (lines : List String) (i : ℕ) (s : ScanSt)
    (h : cycleOK s.data.trajectory) :
    cycleOK (coordCloseUpdate lines i s).data.trajectory := by
  simp only [coordCloseUpdate]
  split
  · exact cycleOK_append _ _ _ _ h
  · exact h

theorem closeStage_cycleOK (lines : List String) (i : ℕ) (line : String) (s : ScanSt)
    (h : cycleOK s.data.trajectory) :
    cycleOK (closeStage lines i line s).data.trajectory := by
  simp only [closeStage]; split
  · exact coordCloseUpdate_cycleOK lines i s h
  · exact h

theorem scanStep_cycleOK (lines : List String) (i : ℕ) (s : ScanSt)
    (h : cycleOK s.data.trajectory) :
    cycleOK (scanStep lines i s).1.data.trajectory := by
  simp only [scanStep]
  repeat' split
  all_goals
    simp only [coordStage_data, irStage_trajectory, thermoUpdate_trajectory,
      mullikenStage_trajectory, loewdinStage_trajectory, scfUpdate_trajectory,
      dipoleUpdate_trajectory, orbitalStage_trajectory, nmrStage_trajectory]
  all_goals first
    | exact h
    | exact closeStage_cycleOK lines i (jsTrim (lines.getD i "")) s h

theorem scanRun_cycleOK (lines : List String) (fuel : ℕ) :
    ∀ (i : ℕ) (s : ScanSt), cycleOK s.data.trajectory →
      cycleOK (scanRun lines fuel i s).data.trajectory := by
  induction fuel with
  | zero => intro i s h; exact h
  | succ n ih =>
    intro i s h
    simp only [scanRun]
    split
    · exact ih _ _ (scanStep_cycleOK lines i s h)
    · exact h

theorem parseOutputFile_cycleOK (content : String) (data : OrcaData)
    (h : cycleOK data.trajectory) :
    cycleOK (parseOutputFile content data).trajectory := by
  simp only [parseOutputFile]
  split
  · exact cycleOK_append _ _ _ _
      (scanRun_cycleOK (jsLines content) (jsLines content).length 0
        ⟨false, [], false, false, false, false, false, data⟩ h)
  · exact scanRun_cycleOK (jsLines content) (jsLines content).length 0
      ⟨false, [], false, false, false, false, false, data⟩ h

/-! ## Hessian parser frame machinery -/

theorem hessStep_shape (lines : List String) (i : ℕ) (s : HessSt) :
    ∃ v, (hessStep lines i s).1.data = { s.data with vibrations := v } := by
  simp only [hessStep]; repeat' split
  all_goals exact ⟨_, rfl⟩

theorem hessRun_shape (lines : List String) (fuel : ℕ) :
    ∀ (i : ℕ) (s : HessSt),
      ∃ v, (hessRun lines fuel i s).data = { s.data with vibrations := v } := by
  induction fuel with
  | zero => intro i s; exact ⟨s.data.vibrations, rfl⟩
  | succ n ih =>
    intro i s
    simp only [hessRun]
    split
    · obtain ⟨v1, h1⟩ := hessStep_shape lines i s
      obtain ⟨v2, h2⟩ := ih (hessStep lines i s).2 (hessStep lines i s).1
      exact ⟨v2, by rw [h2, h1]⟩
    · exact ⟨s.data.vibrations, rfl⟩

theorem parseHessianFile_shape (content : String) (data : OrcaData) :
    ∃ v, parseHessianFile content data = { data with vibrations := v } := by
  simp only [parseHessianFile]
  exact hessRun_shape (jsLines content) (jsLines content).length 0 ⟨"", data⟩

/-! ## NMR invariant machinery -/

theorem scanStep_nmrInv (lines : List String) (i : ℕ) (s : ScanSt)
    (hm : nmrMarker (jsTrim (lines.getD i "")) = false)
    (h1 : s.readingNMR = false) (h2 : s.data.nmrShielding = []) :
    (scanStep lines i s).1.readingNMR = false ∧
      (scanStep lines i s).1.data.nmrShielding = [] := by
  simp only [scanStep, hm, Bool.false_eq_true, if_false]
  repeat' split
  all_goals
    simp_all only [closeStage_readingNMR, closeStage_nmrShielding,
      coordStage_data, coordStage_readingNMR,
      irStage_readingNMR, irStage_nmrShielding,
      thermoUpdate_readingNMR, thermoUpdate_nmrShielding,
      mullikenStage_readingNMR, mullikenStage_nmrShielding,
      loewdinStage_readingNMR, loewdinStage_nmrShielding,
      scfUpdate_readingNMR, scfUpdate_nmrShielding,
      dipoleUpdate_readingNMR, dipoleUpdate_nmrShielding,
      orbitalStage_readingNMR, orbitalStage_nmrShielding,
      nmrStage, Bool.false_eq_true, if_false, and_self]

theorem scanRun_nmrInv (lines : List String)
    (hall : ∀ j, nmrMarker (jsTrim (lines.getD j "")) = false) (fuel : ℕ) :
    ∀ (i : ℕ) (s : ScanSt), s.readingNMR = false → s.data.nmrShielding = [] →
      (scanRun lines fuel i s).data.nmrShielding = [] := by
  induction fuel with
  | zero => intro i s _ h2; exact h2
  | succ n ih =>
    intro i s h1 h2
    simp only [scanRun]
    split
    · obtain ⟨g1, g2⟩ := scanStep_nmrInv lines i s (hall i) h1 h2
      exact ih _ _ g1 g2
    · exact h2

theorem parseOutputFile_nmr (content : String) (data : OrcaData)
    (h : ∀ line ∈ jsLines content, nmrMarker (jsTrim line) = false)
    (hd : data.nmrShielding = []) :
    (parseOutputFile content data).nmrShielding = [] := by
  have hall : ∀ j, nmrMarker (jsTrim ((jsLines content).getD j "")) = false := by
    intro j
    by_cases hj : j < (jsLines content).length
    · rw [List.getD_eq_getElem _ _ hj]
      exact h _ (List.getElem_mem hj)
    · rw [List.getD_eq_default _ _ (Nat.le_of_not_lt hj)]
      decide
  simp only [parseOutputFile]
  split
  · exact scanRun_nmrInv (jsLines content) hall (jsLines content).length 0
      ⟨false, [], false, false, false, false, false, data⟩ rfl hd
  · exact scanRun_nmrInv (jsLines content) hall (jsLines content).length 0
      ⟨false, [], false, false, false, false, false, data⟩ rfl hd

/-! ## Fold-level lemmas for `parseOrcaFiles` -/

theorem parseFold_nmr (files : List InputFile) :
    ∀ d : OrcaData,
      (∀ f ∈ files, ∀ line ∈ jsLines f.content, nmrMarker (jsTrim line) = false) →
      d.nmrShielding = [] →
      (files.foldl (fun d f =>
        if jsEndsWith f.name ".hess" || jsIncludes f.content "$ir_spectrum" then
          parseHessianFile f.content d
        else parseOutputFile f.content d) d).nmrShielding = [] := by
  induction files with
  | nil => intro d _ hd; exact hd
  | cons f fs ih =>
    intro d h hd
    simp only [List.foldl_cons]
    apply ih
    · intro g hg
      exact h g (List.mem_cons_of_mem f hg)
    · split
      · obtain ⟨v, hv⟩ := parseHessianFile_shape f.content d
        rw [hv]
        exact hd
      · exact parseOutputFile_nmr f.content d (h f (List.mem_cons_self f fs)) hd

theorem parseFold_cycleOK (files : List InputFile) :
    ∀ d : OrcaData, cycleOK d.trajectory →
      cycleOK ((files.foldl (fun d f =>
        if jsEndsWith f.name ".hess" || jsIncludes f.content "$ir_spectrum" then
          parseHessianFile f.content d
        else parseOutputFile f.content d) d)).trajectory := by
  induction files with
  | nil => intro d hd; exact hd
  | cons f fs ih =>
    intro d hd
    simp only [List.foldl_cons]
    apply ih
    split
    · obtain ⟨v, hv⟩ := parseHessianFile_shape f.content d
      rw [hv]
      exact hd
    · exact parseOutputFile_cycleOK f.content d hd

/-! ## Claims C6, C7, C10 -/

/-- Claim C6: for every parse whose input files contain no NMR section
marker, the returned aggregate record's `nmrShielding` field is the empty
collection (not an error and not an absent field).  The NMR handling is
spec-modelled (see `nmrMarker`): the aggregate starts with `nmrShielding
= []` and only lines in a marker-opened NMR section ever extend it. -/
theorem nmr_missing_section_empty (files : List InputFile)
    (h : ∀ f ∈ files, ∀ line ∈ jsLines f.content, nmrMarker (jsTrim line) = false) :
    (parseOrcaFiles files).nmrShielding = [] := by
  simp only [parseOrcaFiles]
  split
  · exact parseFold_nmr files emptyOrcaData h rfl
  · exact parseFold_nmr files emptyOrcaData h rfl

/-- Witness for C6: a concrete file set with no NMR marker parses to an
empty `nmrShielding` collection. -/
theorem nmr_missing_section_empty_witness :
    (∀ f ∈ exC6files, ∀ line ∈ jsLines f.content, nmrMarker (jsTrim line) = false) ∧
    (parseOrcaFiles exC6files).nmrShielding = [] :=
  ⟨by decide, nmr_missing_section_empty exC6files (by decide)⟩

/-- Claim C7: for every successful parse and every index `i` into the
trajectory, `trajectory[i].cycle = i`: cycle values are dense and
strictly increasing from 0, across all coordinate blocks of all input
files (every push uses the current trajectory length as the cycle). -/
theorem trajectory_cycle_dense (files : List InputFile) (i : ℕ)
    (h : i < (parseOrcaFiles files).trajectory.length) :
    ((parseOrcaFiles files).trajectory.getD i default).cycle = i := by
  have hOK : cycleOK (parseOrcaFiles files).trajectory := by
    simp only [parseOrcaFiles]
    have hempty : cycleOK (emptyOrcaData.trajectory) := by
      intro k hk
      exact absurd hk (Nat.not_lt_zero k)
    split
    · exact parseFold_cycleOK files emptyOrcaData hempty
    · exact parseFold_cycleOK files emptyOrcaData hempty
  rw [List.getD_eq_getElem _ _ h]
  exact hOK i h

set_option maxRecDepth 100000 in
set_option maxHeartbeats 1000000 in
/-- Witness for C7: a concrete two-block stream yields a trajectory whose
entry 0 has cycle 0. -/
theorem trajectory_cycle_dense_witness :
    0 < (parseOrcaFiles exC7files).trajectory.length ∧
    ((parseOrcaFiles exC7files).trajectory.getD 0 default).cycle = 0 := by
  have hlen : (parseOrcaFiles exC7files).trajectory.length = 2 := by
    with_unfolding_all rfl
  have h0 : 0 < (parseOrcaFiles exC7files).trajectory.length := by
    rw [hlen]
    exact Nat.zero_lt_two
  exact ⟨h0, trajectory_cycle_dense exC7files 0 h0⟩

/-- Claim C10: processing a file classified as a hessian block mutates
only the vibrations collection of the aggregate record: atoms, bonds,
trajectory, Mulliken and Loewdin charges, SCF convergence, orbitals,
thermochemistry and dipole moment are identical before and after
`parseHessianFile`. -/
theorem parseHessianFile_frame (content : String) (data : OrcaData) :
    (parseHessianFile content data).atoms = data.atoms ∧
    (parseHessianFile content data).bonds = data.bonds ∧
    (parseHessianFile content data).trajectory = data.trajectory ∧
    (parseHessianFile content data).mullikenCharges = data.mullikenCharges ∧
    (parseHessianFile content data).loewdinCharges = data.loewdinCharges ∧
    (parseHessianFile content data).scfConvergence = data.scfConvergence ∧
    (parseHessianFile content data).orbitals = data.orbitals ∧
    (parseHessianFile content data).thermo = data.thermo ∧
    (parseHessianFile content data).dipoleMoment = data.dipoleMoment := by
  obtain ⟨v, hv⟩ := parseHessianFile_shape content data
  rw [hv]
  exact ⟨rfl, rfl, rfl, rfl, rfl, rfl, rfl, rfl, rfl⟩

/-! ## Claim C2: energy attachment -/

theorem coordCloseUpdate_trajectory (lines : List String) (i : ℕ) (s : ScanSt)
    (h : 0 < s.tempAtoms.length) :
    (coordCloseUpdate lines i s).data.trajectory =
      s.data.trajectory ++
        [⟨s.data.trajectory.length, windowEnergy lines i, 0, s.tempAtoms⟩] := by
  simp only [coordCloseUpdate]
  rw [if_pos h]

set_option maxRecDepth 100000 in
set_option maxHeartbeats 1000000 in
/-- Claim C2 counterexample: in `exC2` the energy marker line occurs at
index 5, right after the first trajectory step has been pushed (at the
close on index 4); the claim predicts the marker's value −75.5 is applied
to that most recently pushed step, but the code leaves that step at 0 and
applies −75.5 to the NEXT step, pushed at the close on index 10. -/
theorem energy_attachment_cex :
    ((parseOutputFile exC2 emptyOrcaData).trajectory.map GeometryStep.energy)
        = [some 0, some (-151 / 2)] ∧
    ((parseOutputFile exC2 emptyOrcaData).trajectory.getD 0 default).energy
        ≠ some (-151 / 2) := by
  constructor
  · with_unfolding_all rfl
  · rw [show ((parseOutputFile exC2 emptyOrcaData).trajectory.getD 0
        default).energy = some 0 from by with_unfolding_all rfl]
    intro hc
    exact absurd (Option.some.inj hc) (by norm_num)

/-- Claim C2, amended: the energy of a trajectory step is fixed at the
moment its coordinate block closes (at raw-line index `i`): it is the
value of the first "FINAL SINGLE POINT ENERGY" pattern found in the 100
raw lines strictly before `i`, or 0 when the pattern is absent there.
Consequently an energy marker attaches to the NEXT step pushed at most
100 lines after it — not to the most recently pushed step, and not
regardless of position. -/
theorem energy_attachment_window (lines : List String) (i : ℕ) (s : ScanSt)
    (hclose : jsIncludes (jsTrim (lines.getD i ""))
        "CARTESIAN COORDINATES (A.U.)" = true
      ∨ jsIncludes (jsTrim (lines.getD i "")) "INTERNAL COORDINATES" = true)
    (hnotAng : jsIncludes (jsTrim (lines.getD i ""))
        "CARTESIAN COORDINATES (ANGSTROEM)" = false)
    (hatoms : 0 < s.tempAtoms.length) :
    (scanStep lines i s).1.data.trajectory =
      s.data.trajectory ++
        [⟨s.data.trajectory.length, windowEnergy lines i, 0, s.tempAtoms⟩] := by
  have hc : (jsIncludes (jsTrim (lines.getD i "")) "CARTESIAN COORDINATES (A.U.)"
      || jsIncludes (jsTrim (lines.getD i "")) "INTERNAL COORDINATES") = true := by
    rcases hclose with h | h
    · rw [h, Bool.true_or]
    · rw [h, Bool.or_true]
  simp only [scanStep, hnotAng, Bool.false_eq_true, if_false, closeStage, hc,
    if_true]
  repeat' split
  all_goals
    simp only [coordStage_data, irStage_trajectory, thermoUpdate_trajectory,
      mullikenStage_trajectory, loewdinStage_trajectory, scfUpdate_trajectory,
      dipoleUpdate_trajectory, orbitalStage_trajectory, nmrStage_trajectory]
  all_goals exact coordCloseUpdate_trajectory lines i s hatoms

/-- Witness for the amended C2: a concrete close line with one collected
atom pushes a step whose energy is the window lookup. -/
theorem energy_attachment_window_witness :
    (jsIncludes (jsTrim ((jsLines exC2).getD 4 ""))
        "CARTESIAN COORDINATES (A.U.)" = true
      ∨ jsIncludes (jsTrim ((jsLines exC2).getD 4 ""))
        "INTERNAL COORDINATES" = true) ∧
    jsIncludes (jsTrim ((jsLines exC2).getD 4 ""))
        "CARTESIAN COORDINATES (ANGSTROEM)" = false ∧
    0 < stC2.tempAtoms.length ∧
    (scanStep (jsLines exC2) 4 stC2).1.data.trajectory =
      stC2.data.trajectory ++
        [⟨stC2.data.trajectory.length, windowEnergy (jsLines exC2) 4,
          0, stC2.tempAtoms⟩] :=
  ⟨Or.inl (by decide), by decide, by decide,
   energy_attachment_window (jsLines exC2) 4 stC2 (Or.inl (by decide))
     (by decide) (by decide)⟩

/-! ## Claim C4: repeated section marker while mid-read -/

set_option maxRecDepth 100000 in
set_option maxHeartbeats 1000000 in
/-- Claim C4 counterexample: in `exC4` the Mulliken marker occurs again
at index 3 while the section is still mid-read (the state after the first
three processed lines has `readingMulliken` and one collected row); the
claim predicts the rows accumulate, but the final collection holds only
the row that follows the second marker — the first row was truncated. -/
theorem mulliken_midread_reset_cex :
    (scanRun (jsLines exC4) 2 0
        ⟨false, [], false, false, false, false, false,
          emptyOrcaData⟩).readingMulliken = true ∧
    (scanRun (jsLines exC4) 2 0
        ⟨false, [], false, false, false, false, false,
          emptyOrcaData⟩).data.mullikenCharges
        = [⟨some 0, "C", some (-1 / 2)⟩] ∧
    (parseOutputFile exC4 emptyOrcaData).mullikenCharges
        = [⟨some 1, "O", some (1 / 2)⟩] := by
  refine ⟨?_, ?_, ?_⟩ <;> with_unfolding_all rfl

/-- Claim C4, amended: every occurrence of the Mulliken section marker
(on a line not claimed first by the coordinate-block or IR-table
markers) resets the Mulliken collection to empty and enters reading
mode, regardless of whether the section was mid-read; a resumed section
never accumulates onto the prior partial collection. -/
theorem mulliken_marker_resets (lines : List String) (i : ℕ) (s : ScanSt)
    (hm : jsIncludes (jsTrim (lines.getD i ""))
        "MULLIKEN ATOMIC CHARGES" = true)
    (hng : jsIncludes (jsTrim (lines.getD i ""))
        "CARTESIAN COORDINATES (ANGSTROEM)" = false)
    (hir : irStart (jsTrim (lines.getD i "")) = false) :
    (scanStep lines i s).1.data.mullikenCharges = [] ∧
    (scanStep lines i s).1.readingMulliken = true := by
  simp only [scanStep, hng, hir, Bool.false_eq_true, if_false, hm, if_true]
  constructor <;> trivial

/-- Witness for the amended C4: the second marker of `exC4`, hit in a
mid-read state carrying a partial row, still resets the collection. -/
theorem mulliken_marker_resets_witness :
    jsIncludes (jsTrim ((jsLines exC4).getD 3 ""))
        "MULLIKEN ATOMIC CHARGES" = true ∧
    jsIncludes (jsTrim ((jsLines exC4).getD 3 ""))
        "CARTESIAN COORDINATES (ANGSTROEM)" = false ∧
    irStart (jsTrim ((jsLines exC4).getD 3 "")) = false ∧
    ((scanStep (jsLines exC4) 3 stC4).1.data.mullikenCharges = [] ∧
      (scanStep (jsLines exC4) 3 stC4).1.readingMulliken = true) :=
  ⟨by decide, by decide, by decide,
   mulliken_marker_resets (jsLines exC4) 3 stC4 (by decide) (by decide)
     (by decide)⟩

/-! ## Claim C5: malformed table lines -/

set_option maxRecDepth 100000 in
set_option maxHeartbeats 1000000 in
/-- Claim C5 counterexample: the well-shaped Mulliken row `0 C : abc`
has a non-numeric charge field; the claim says such a line is skipped and
no record with a NaN numeric field is ever added, but the code pushes a
record whose charge is NaN (`none`). -/
theorem malformed_nan_charge_cex :
    (parseOutputFile exC5 emptyOrcaData).mullikenCharges
        = [⟨some 0, "C", none⟩] := by
  with_unfolding_all rfl

/-- Claim C5, amended: inside a charge table, a line with the wrong
field count (not exactly one colon, or fewer than two whitespace fields
left of it) that is not a terminator is skipped without pushing a record
and without ending the section; but a line of the right shape whose
charge field is non-numeric is NOT skipped — it is pushed with NaN as
the charge (the `parseFloat` result is unguarded; only the orbital
number and SCF energy have `isNaN` guards). -/
theorem charge_line_wrong_shape_skipped (line : String) (s : ScanSt)
    (h1 : line ≠ "")
    (h2 : jsIncludes line "Sum of atomic charges" = false)
    (hshape : (jsSplitChar line ':').length ≠ 2 ∨
      (wsTokens (jsTrim ((jsSplitChar line ':').getD 0 ""))).length < 2) :
    (mullikenLineUpdate line s).data.mullikenCharges = s.data.mullikenCharges ∧
    (mullikenLineUpdate line s).readingMulliken = s.readingMulliken := by
  have hnone : parseChargeLine line = none := by
    simp only [parseChargeLine]
    by_cases hl : (jsSplitChar line ':').length = 2
    · rw [if_pos hl]
      rcases hshape with h | h
      · exact absurd hl h
      · cases hw : wsTokens (jsTrim ((jsSplitChar line ':').getD 0 "")) with
        | nil => rfl
        | cons a tl =>
          cases tl with
          | nil => rfl
          | cons b tl2 =>
            rw [hw] at h
            simp only [List.length_cons] at h
            omega
    · rw [if_neg hl]
  simp only [mullikenLineUpdate]
  rw [if_neg (by simp [h1, h2])]
  split
  · simp only [hnone]
    constructor <;> trivial
  · exact ⟨rfl, rfl⟩

/-- Witness for the amended C5: the colon-free line `0 C` is skipped and
the section stays open. -/
theorem charge_line_wrong_shape_skipped_witness :
    ("0 C" : String) ≠ "" ∧
    jsIncludes "0 C" "Sum of atomic charges" = false ∧
    ((jsSplitChar "0 C" ':').length ≠ 2 ∨
      (wsTokens (jsTrim ((jsSplitChar "0 C" ':').getD 0 ""))).length < 2) ∧
    ((mullikenLineUpdate "0 C" stC5).data.mullikenCharges
        = stC5.data.mullikenCharges ∧
      (mullikenLineUpdate "0 C" stC5).readingMulliken = stC5.readingMulliken) :=
  ⟨by decide, by decide, Or.inl (by decide),
   charge_line_wrong_shape_skipped "0 C" stC5 (by decide) (by decide)
     (Or.inl (by decide))⟩

/-! ## Claim C3: hessian merge scenario -/

set_option maxRecDepth 100000 in
set_option maxHeartbeats 1000000 in
/-- Claim C3 counterexample: in the merge scenario (`filesC3`) the two
frequency declarations 44.92 and 44.95 do merge into one record, but the
record's displacement vectors are empty — length 0, not the atom count 1
— because the parser never reads normal-mode vectors from the hessian
file. -/
theorem hessian_merge_vectors_cex :
    (parseOrcaFiles filesC3).atoms.length = 1 ∧
    (parseOrcaFiles filesC3).vibrations.length = 1 ∧
    ((parseOrcaFiles filesC3).vibrations.getD 0 default).vectors.length = 0 := by
  refine ⟨?_, ?_, ?_⟩ <;> with_unfolding_all rfl

set_option maxRecDepth 100000 in
set_option maxHeartbeats 1000000 in
/-- Claim C3, amended: the generic output's 44.92 entry and the hessian
file's 44.95 entry merge into a single vibration record
(|44.95 − 44.92| = 0.03 < 0.1) retaining the frequency and the intensity
(0) from the first-parsed source; its displacement vector list remains
empty — the parser never attaches hessian normal-mode vectors. -/
theorem hessian_merge_amended :
    (parseOrcaFiles filesC3).vibrations
        = [⟨some 6, some (1123 / 25), some 0, []⟩] := by
  with_unfolding_all rfl

/-! ## Claim C8: symmetry of the bond classification -/

theorem bondRefEntry_dom {a b : String} (h : bondRefEntry a b ≠ none) :
    a = "C" ∨ a = "N" ∨ a = "O" ∨ a = "H" := by
  unfold bondRefEntry at h
  split_ifs at h <;> simp_all

theorem getBondOrderInfo_comm (el1 el2 : String) :
    getBondOrderInfo el1 el2 = getBondOrderInfo el2 el1 := by
  simp only [getBondOrderInfo]
  generalize jsCapitalize el1 = a
  generalize jsCapitalize el2 = b
  by_cases hab : bondRefEntry a b = none
  · by_cases hba : bondRefEntry b a = none
    · simp [hab, hba, Option.orElse]
    · simp [hab, Option.orElse]
      cases hx : bondRefEntry b a with
      | none => exact absurd hx hba
      | some y => simp [Option.orElse, hab, hx]
  · by_cases hba : bondRefEntry b a = none
    · cases hx : bondRefEntry a b with
      | none => exact absurd hx hab
      | some y => simp [Option.orElse, hba, hx]
    · have ha := bondRefEntry_dom hab
      have hb := bondRefEntry_dom hba
      rcases ha with rfl | rfl | rfl | rfl <;>
        rcases hb with rfl | rfl | rfl | rfl <;> rfl

theorem jsub_sq_comm (x y : JSNum) :
    jmul (jsub x y) (jsub x y) = jmul (jsub y x) (jsub y x) := by
  cases x <;> cases y <;> simp [jsub, jmul]
  ring

/-- Claim C8: bond classification is symmetric — for every two element
symbols and every (squared) distance, the connectivity decision and the
assigned bond order computed for `(a, b)` equal those computed for
`(b, a)`; and the squared distance itself is symmetric in the two
atoms. -/
theorem bond_classification_symm :
    (∀ el1 el2 d2, bondDecision el1 el2 d2 = bondDecision el2 el1 d2) ∧
    (∀ el1 el2 d2, codeOrder el1 el2 d2 = codeOrder el2 el1 d2) ∧
    ∀ a b : Atom, dist2 a b = dist2 b a := by
  refine ⟨fun el1 el2 d2 => ?_, fun el1 el2 d2 => ?_, fun a b => ?_⟩
  · simp only [bondDecision]
    rw [add_comm (getRadius el1)]
  · simp only [codeOrder]
    rw [getBondOrderInfo_comm]
  · simp only [dist2]
    rw [jsub_sq_comm a.x b.x, jsub_sq_comm a.y b.y, jsub_sq_comm a.z b.z]

/-! ## Claim C9: bond index and order validity -/

theorem mem_calculateBonds {atoms : List Atom} {b : Bond} :
    b ∈ calculateBonds atoms ↔
      ∃ i j, i < j ∧ j < atoms.length ∧
        bondDecision (atoms.getD i default).element (atoms.getD j default).element
          (dist2 (atoms.getD i default) (atoms.getD j default)) = true ∧
        b = ⟨i, j, codeOrder (atoms.getD i default).element
              (atoms.getD j default).element
              (dist2 (atoms.getD i default) (atoms.getD j default))⟩ := by
  simp only [calculateBonds, List.mem_flatMap, List.mem_filterMap,
    List.mem_range, List.mem_range'_1]
  constructor
  · rintro ⟨i, hi, j, ⟨hj1, hj2⟩, hb⟩
    split at hb
    · refine ⟨i, j, by omega, by omega, by assumption, ?_⟩
      exact (Option.some.inj hb).symm
    · exact absurd hb (by simp)
  · rintro ⟨i, j, hij, hj, hdec, rfl⟩
    refine ⟨i, by omega, j, ⟨by omega, by omega⟩, ?_⟩
    rw [if_pos hdec]

theorem codeOrder_cases (el1 el2 : String) (d2 : JSNum) :
    codeOrder el1 el2 d2 = 1 ∨ codeOrder el1 el2 d2 = 2 ∨
      codeOrder el1 el2 d2 = 3 := by
  simp only [codeOrder]
  repeat' split
  all_goals simp

/-- Claim C9: every bond produced by the bond inference engine on an
atom set of size N has `source < N`, `target < N`, `source ≠ target`,
`source < target`, and order in {1, 2, 3}. -/
theorem bond_indices_valid (atoms : List Atom) (b : Bond)
    (h : b ∈ calculateBonds atoms) :
    b.source < atoms.length ∧ b.target < atoms.length ∧
    b.source ≠ b.target ∧ b.source < b.target ∧
    (b.order = 1 ∨ b.order = 2 ∨ b.order = 3) := by
  obtain ⟨i, j, hij, hj, hdec, rfl⟩ := mem_calculateBonds.mp h
  dsimp only
  exact ⟨by omega, hj, by omega, hij, codeOrder_cases _ _ _⟩

set_option maxRecDepth 100000 in
set_option maxHeartbeats 1000000 in
/-- Witness for C9: the two hydrogens 0.74 Å apart produce exactly the
single bond `{source 0, target 1, order 1}`, which satisfies all the
invariants. -/
theorem bond_indices_valid_witness :
    (⟨0, 1, 1⟩ : Bond) ∈ calculateBonds hhAtoms ∧
    ((0 : ℕ) < hhAtoms.length ∧ (1 : ℕ) < hhAtoms.length ∧
      (0 : ℕ) ≠ 1 ∧ (0 : ℕ) < 1 ∧
      ((1 : ℕ) = 1 ∨ (1 : ℕ) = 2 ∨ (1 : ℕ) = 3)) := by
  have hmem : (⟨0, 1, 1⟩ : Bond) ∈ calculateBonds hhAtoms := by
    rw [show calculateBonds hhAtoms = [⟨0, 1, 1⟩] from by
      with_unfolding_all rfl]
    exact List.mem_singleton.mpr rfl
  exact ⟨hmem, bond_indices_valid hhAtoms ⟨0, 1, 1⟩ hmem⟩

/-! ## Claim C1: connectivity and order refinement -/

theorem jsqrtLeQ_iff (q t : ℚ) :
    jsqrtLeQ (some q) t = true ↔ Real.sqrt (q : ℝ) ≤ (t : ℝ) := by
  simp only [jsqrtLeQ, Bool.and_eq_true, decide_eq_true_eq]
  rw [Real.sqrt_le_iff]
  constructor
  · rintro ⟨ht, hq⟩
    refine ⟨by exact_mod_cast ht, ?_⟩
    have h2 : ((q : ℝ)) ≤ ((t : ℚ) : ℝ) * ((t : ℚ) : ℝ) := by exact_mod_cast hq
    rw [sq]
    exact h2
  · rintro ⟨ht, hq⟩
    refine ⟨by exact_mod_cast ht, ?_⟩
    rw [sq] at hq
    exact_mod_cast hq

set_option maxHeartbeats 1000000 in
theorem bondRefEntry_triple_double {a b : String} {info : BondLen}
    (h : bondRefEntry a b = some info) (ht : info.triple ≠ none) :
    info.double ≠ none := by
  unfold bondRefEntry bondRefC bondRefN bondRefO bondRefH at h
  split_ifs at h
  all_goals obtain rfl := Option.some.inj h
  all_goals simp_all

theorem getBondOrderInfo_triple_double {el1 el2 : String} {info : BondLen}
    (h : getBondOrderInfo el1 el2 = some info) (ht : info.triple ≠ none) :
    info.double ≠ none := by
  simp only [getBondOrderInfo] at h
  cases hab : bondRefEntry (jsCapitalize el1) (jsCapitalize el2) with
  | some x =>
    rw [hab] at h
    simp only [Option.orElse] at h
    cases h
    exact bondRefEntry_triple_double hab ht
  | none =>
    rw [hab] at h
    simp only [Option.orElse] at h
    exact bondRefEntry_triple_double h ht

theorem codeOrder_specOrderIs (el1 el2 : String) (q : ℚ) :
    specOrderIs el1 el2 (Real.sqrt (q : ℝ)) (codeOrder el1 el2 (some q)) := by
  rcases hinfo : getBondOrderInfo el1 el2 with _ | ⟨single, double, triple⟩
  · simp only [specOrderIs, codeOrder, hinfo]
  · rcases triple with _ | t <;> rcases double with _ | dd
    · simp [specOrderIs, codeOrder, hinfo]
    · simp only [specOrderIs, codeOrder, hinfo]
      by_cases hc : jsqrtLeQ (some q) ((single + dd) / 2) = true
      · rw [if_pos ((jsqrtLeQ_iff _ _).mp hc)]
        simp [hc]
      · rw [if_neg (fun hr => hc ((jsqrtLeQ_iff _ _).mpr hr))]
        simp [hc]
    · exact absurd (getBondOrderInfo_triple_double hinfo (by simp)) (by simp)
    · simp only [specOrderIs, codeOrder, hinfo]
      by_cases hc3 : jsqrtLeQ (some q) ((dd + t) / 2) = true
      · rw [if_pos ((jsqrtLeQ_iff _ _).mp hc3)]
        simp [hc3]
      · rw [if_neg (fun hr => hc3 ((jsqrtLeQ_iff _ _).mpr hr))]
        by_cases hc2 : jsqrtLeQ (some q) ((single + dd) / 2) = true
        · rw [if_pos ((jsqrtLeQ_iff _ _).mp hc2)]
          simp [hc3, hc2]
        · rw [if_neg (fun hr => hc2 ((jsqrtLeQ_iff _ _).mpr hr))]
          simp [hc3, hc2]

/-- Claim C1: for every pair `i < j` of atoms in the final atom set whose
squared Euclidean distance is the rational `q` (i.e. the distance is
`√q`), `calculateBonds` emits a bond for the pair if and only if
`√q ≤ (r1 + r2) × 1.15 + 0.1` (per-element covalent radii with default);
and every emitted bond's order satisfies the specification's
order-classification rule (`specOrderIs`). -/
theorem calculateBonds_spec (atoms : List Atom) (i j : ℕ)
    (hij : i < j) (hj : j < atoms.length) (q : ℚ)
    (hq : dist2 (atoms.getD i default) (atoms.getD j default) = some q) :
    ((∃ o, (⟨i, j, o⟩ : Bond) ∈ calculateBonds atoms) ↔
      Real.sqrt (q : ℝ) ≤
        (((getRadius (atoms.getD i default).element +
            getRadius (atoms.getD j default).element) * 1.15 + 0.1 : ℚ) : ℝ)) ∧
    (∀ o, (⟨i, j, o⟩ : Bond) ∈ calculateBonds atoms →
      specOrderIs (atoms.getD i default).element
        (atoms.getD j default).element (Real.sqrt (q : ℝ)) o) := by
  constructor
  · constructor
    · rintro ⟨o, ho⟩
      obtain ⟨i2, j2, hij2, hj2, hdec, heq⟩ := mem_calculateBonds.mp ho
      rw [Bond.mk.injEq] at heq
      obtain ⟨rfl, rfl, -⟩ := heq
      rw [bondDecision, hq] at hdec
      exact (jsqrtLeQ_iff _ _).mp hdec
    · intro hd
      refine ⟨_, mem_calculateBonds.mpr ⟨i, j, hij, hj, ?_, rfl⟩⟩
      rw [bondDecision, hq]
      exact (jsqrtLeQ_iff _ _).mpr hd
  · intro o ho
    obtain ⟨i2, j2, hij2, hj2, hdec, heq⟩ := mem_calculateBonds.mp ho
    rw [Bond.mk.injEq] at heq
    obtain ⟨rfl, rfl, rfl⟩ := heq
    rw [hq]
    exact codeOrder_specOrderIs _ _ q

set_option maxRecDepth 100000 in
set_option maxHeartbeats 1000000 in
/-- Witness for C1: the two carbons 1.20 Å apart (squared distance
36/25) satisfy the hypotheses, and the theorem's conclusion (the
connectivity iff and the order classification) holds there. -/
theorem calculateBonds_spec_witness :
    ((0 : ℕ) < 1 ∧ 1 < ccAtoms.length ∧
      dist2 (ccAtoms.getD 0 default) (ccAtoms.getD 1 default)
        = some (36 / 25)) ∧
    ((∃ o, (⟨0, 1, o⟩ : Bond) ∈ calculateBonds ccAtoms) ↔
      Real.sqrt ((36 / 25 : ℚ) : ℝ) ≤
        (((getRadius (ccAtoms.getD 0 default).element +
            getRadius (ccAtoms.getD 1 default).element) * 1.15 + 0.1 : ℚ) : ℝ)) ∧
    (∀ o, (⟨0, 1, o⟩ : Bond) ∈ calculateBonds ccAtoms →
      specOrderIs (ccAtoms.getD 0 default).element
        (ccAtoms.getD 1 default).element (Real.sqrt ((36 / 25 : ℚ) : ℝ)) o) := by
  have hq : dist2 (ccAtoms.getD 0 default) (ccAtoms.getD 1 default)
      = some (36 / 25) := by with_unfolding_all rfl
  obtain ⟨h1, h2⟩ := calculateBonds_spec ccAtoms 0 1 (by decide) (by decide)
    (36 / 25) hq
  exact ⟨⟨by decide, by decide, hq⟩, h1, h2⟩

end OrcaView
